import Mathlib

/-!
Verification development for the financial-document OCR application
(`src/app.py`): a shallow embedding of its result-normalization and
CSV-export pipeline, with theorems checking the specification's claims.

Modelling conventions:
* Python `dict`s are association lists `List (String × α)` in insertion
  order; assignment `d[k] = v` is `dictInsert` (update in place if the key
  exists, else append), and `k in d` / `d[k]` go through `alookup`.
* JSON-serializable Python values are `JVal`.
* The Azure `AnalyzeResult` object is `AnalyzeResult`; `hasattr` checks on
  optional attributes become `Option` fields, and a collection attribute
  whose absence and emptiness are observationally identical (both falsy)
  is a plain `List`.
* `str(x)` on an opaque SDK value object is the `rendered` projection of
  `AzureVal`; `str` on a decoded JSON value is `pyStr` (its exact output
  is never relied upon by any theorem).
* The stored `structured_data` column holds `json.dumps(fields)`; at
  export time `json.loads` either returns the same mapping (the JSON
  library's round-trip contract) or raises `JSONDecodeError`.  `Blob`
  models the stored blob at that level of abstraction: `Blob.ok d`
  decodes to `d`, `Blob.bad` raises, `Blob.absent` is a falsy column.
-/

/-- JSON-serializable values as produced by `json.loads`. -/
inductive JVal where
  | jstr (s : String)
  | jnum (q : Rat)
  | jnull
  | jobj (o : List (String × JVal))

/-- First-match lookup in an association list (Python `d[k]` / `d.get(k)`
on a dict, whose keys are unique). -/
def alookup {α : Type} (d : List (String × α)) (k : String) : Option α :=
  match d with
  | [] => none
  | (k₀, v₀) :: t => if k₀ = k then some v₀ else alookup t k

/-- Python dict assignment `d[k] = v`: overwrite in place when the key is
present (dict keys are unique, so at most one entry carries it), append
otherwise. -/
def dictInsert {α : Type} (d : List (String × α)) (k : String) (v : α) :
    List (String × α) :=
  match d with
  | [] => [(k, v)]
  | (k₀, v₀) :: t => if k₀ = k then (k, v) :: t else (k₀, v₀) :: dictInsert t k v

/-- Build a Python dict by successive assignments. -/
def listToDict {α : Type} (l : List (String × α)) : List (String × α) :=
  l.foldl (fun d p => dictInsert d p.1 p.2) []

/-- A textual rendering of a decoded JSON value, modelling Python's
`str(value)`.  No theorem depends on its exact output. -/
def pyStr : JVal → String
  | JVal.jstr s => s
  | JVal.jnum q => toString q
  | JVal.jnull => "None"
  | JVal.jobj o => "\x7b" ++ String.intercalate ", " (pyStrFields o) ++ "\x7d"
where
  pyStrFields : List (String × JVal) → List String
    | [] => []
    | (k, v) :: t => ("'" ++ k ++ "': " ++ pyStr v) :: pyStrFields t

/-- An opaque value object delivered by the extraction SDK in a document
field (`field_value.value`): `amount` / `currency_code` are present iff
`hasattr` succeeds on them, `rendered` is its `str()`, and `asJson` is
what it becomes when stored unchanged into the JSON-serialized mapping. -/
structure AzureVal where
  amount : Option Rat
  currency_code : Option String
  rendered : String
  asJson : JVal

/-- A document field object (`doc.fields[name]`): `value` is `none` when
the attribute is missing or `None`; `value_type` is `none` when the
attribute is missing. -/
structure DocField where
  value : Option AzureVal
  value_type : Option String

/-- One recognized document of the extraction response. -/
structure Doc where
  fields : List (String × DocField)

/-- A key or value element of a key/value pair entry: `content` when the
object has a "content" sub-field, `rendered` its textual rendering. -/
structure KVElem where
  content : Option String
  rendered : String

/-- One key/value pair entry of the extraction response. -/
structure KVPair where
  key : Option KVElem
  value : Option KVElem

/-- One table of the extraction response. -/
structure Table where
  row_count : Nat
  column_count : Nat

/-- The extraction-service response (Azure `AnalyzeResult`): optionally a
top-level text content, recognized documents, key/value pair entries and
tables (absence and emptiness of a collection are both falsy in the
code's `hasattr(...) and ...` guards, hence plain lists). -/
structure AnalyzeResult where
  content : Option String
  documents : List Doc
  keyValuePairs : List KVPair
  tables : List Table

/-- The `{"value": amount, "currency": code}` mapping the code emits for
a recognized currency field (the spec's `Currency(amount, currencyCode)`
representation). -/
def currencyVal (amount : Rat) (code : String) : JVal :=
  JVal.jobj [("value", JVal.jnum amount), ("currency", JVal.jstr code)]

/-- Classification of a single document field, from `app.py` lines
288–305: skip an absent value; on type tag "currency" emit the currency
pair when both sub-attributes exist, else `str(value)`; on "date" emit
`str(value)`; otherwise pass the value through unchanged. -/
def classifyField (f : DocField) : Option JVal :=
  match f.value with
  | none => none
  | some v =>
    match f.value_type with
    | some vt =>
      if vt = "currency" then
        match v.amount, v.currency_code with
        | some a, some cc => some (currencyVal a cc)
        | _, _ => some (JVal.jstr v.rendered)
      else if vt = "date" then some (JVal.jstr v.rendered)
      else some v.asJson
    | none => some v.asJson

/-- The `structured_data` mapping built from one recognized document's
fields (`app.py` lines 288–305). -/
def docFieldsData (d : Doc) : List (String × JVal) :=
  d.fields.foldl (fun acc p =>
    match classifyField p.2 with
    | none => acc
    | some jv => dictInsert acc p.1 jv) []

/-- The `structured_data` extraction of `process_document_with_azure`
(`app.py` lines 282–306): the first recognized document's fields, an
empty mapping otherwise.  The key/value pair and table collections of the
response are never read. -/
def structuredDataOf (r : AnalyzeResult) : List (String × JVal) :=
  match r.documents with
  | [] => []
  | d :: _ => docFieldsData d

/-- The raw-text extraction of `process_document_with_azure` (`app.py`
lines 277–280): the response's top-level content when present and
non-empty, else the empty string. -/
def rawTextOf (r : AnalyzeResult) : String :=
  match r.content with
  | some c => if c = "" then "" else c
  | none => ""

/-- Modelled from the spec: the key text or value text of a key/value
pair element — "preferring a \"content\" sub-field if present, else a
textual rendering of the whole object" (spec §4.1 stage 2, absent from
`src/app.py`, which only contains stage 1). -/
def kvText (e : KVElem) : String :=
  match e.content with
  | some c => c
  | none => e.rendered

/-- The key or value text of an optional pair element (empty when the
element is missing; only used on complete pairs). -/
def optText (e : Option KVElem) : String :=
  match e with
  | some x => kvText x
  | none => ""

/-- Modelled from the spec: the fields emitted by the key/value-pairs
stage — "for each pair with both a key and a value present, derive key
text and value text … and emit `Scalar(valueText)` keyed by `keyText`"
(spec §4.1 stage 2, absent from `src/app.py`). -/
def kvEmissions : List KVPair → List (String × JVal)
  | [] => []
  | p :: ps =>
    match p.key, p.value with
    | some k, some v => (kvText k, JVal.jstr (kvText v)) :: kvEmissions ps
    | _, _ => kvEmissions ps

/-- Modelled from the spec: the fields mapping of the key/value-pairs
stage (spec §4.1 stage 2, absent from `src/app.py`). -/
def stage2Fields (r : AnalyzeResult) : List (String × JVal) :=
  listToDict (kvEmissions r.keyValuePairs)

/-- Modelled from the spec: the fields emitted by the table-metadata
stage — "two scalar fields per table — row count and column count —
keyed by a synthetic name incorporating the table's position" (spec §4.1
stage 3, absent from `src/app.py`).  `n` is the zero-based position of
the first table in the list. -/
def stage3Emissions : Nat → List Table → List (String × JVal)
  | _, [] => []
  | n, t :: ts =>
    ("Table_" ++ toString (n + 1) ++ "_Rows", JVal.jnum t.row_count) ::
    ("Table_" ++ toString (n + 1) ++ "_Columns", JVal.jnum t.column_count) ::
    stage3Emissions (n + 1) ts

/-- Modelled from the spec: the fields mapping of the table-metadata
stage (spec §4.1 stage 3, absent from `src/app.py`). -/
def stage3Fields (r : AnalyzeResult) : List (String × JVal) :=
  listToDict (stage3Emissions 0 r.tables)

/-- Modelled from the spec: the full three-stage fallback chain of
`normalize` — "each stage runs only if the previous produced an empty
fields mapping" (spec §4.1).  Stage 1 is the `structured_data` extraction
of `src/app.py`; stages 2 and 3 are absent from `src/app.py` and
modelled from the spec. -/
def normalizeFields (r : AnalyzeResult) : List (String × JVal) :=
  match structuredDataOf r with
  | [] =>
    match stage2Fields r with
    | [] => stage3Fields r
    | f => f
  | f => f

/-- The decoded form of a stored `structured_data` blob: `ok d` when
`json.loads` returns the mapping `d` (in particular the blob written by
`json.dumps(d)`), `bad` when it raises `JSONDecodeError`, `absent` when
the column is falsy and the code substitutes `{}` without parsing. -/
inductive Blob where
  | absent
  | ok (d : List (String × JVal))
  | bad

/-- One row of the `document_results` table (`app.py` lines 76–86). -/
structure DBRow where
  id : Nat
  filename : String
  upload_timestamp : String
  raw_text : Option String
  structured_data : Blob
  model_type : String
  file_size : Nat

/-- `save_to_database` (`app.py` lines 95–119): append one row, with the
id assigned ascending by the store and `structured_data` serialized from
the fields mapping (`json.dumps`), at timestamp `now`
(`datetime.now().isoformat()`). -/
def save_to_database (db : List DBRow) (filename : String) (raw_text : String)
    (structured_data : List (String × JVal)) (model_type : String)
    (file_size : Nat) (now : String) : List DBRow :=
  db ++ [{ id := db.length + 1
           filename := filename
           upload_timestamp := now
           raw_text := some raw_text
           structured_data := Blob.ok structured_data
           model_type := model_type
           file_size := file_size }]

/-- `get_all_records` (`app.py` lines 121–130): all rows ordered by
upload timestamp descending (`ORDER BY upload_timestamp DESC`); on a
storage error (`dbOk = false`) an empty frame is returned instead. -/
def get_all_records (dbOk : Bool) (db : List DBRow) : List DBRow :=
  if dbOk then
    List.insertionSort (fun a b => b.upload_timestamp ≤ a.upload_timestamp) db
  else []

/-- `len(row['raw_text']) if row['raw_text'] else 0` (`app.py` line 162). -/
def pyLen (o : Option String) : Nat :=
  match o with
  | some t => if t = "" then 0 else t.length
  | none => 0

/-- The `Raw_Text_Preview` value (`app.py` lines 184–188): under a truthy
raw text, the first 500 characters plus an ellipsis when longer than 500,
else the full text; an empty string otherwise. -/
def previewOf (o : Option String) : String :=
  match o with
  | some t =>
    if t = "" then ""
    else if t.length > 500 then t.take 500 ++ "..."
    else t
  | none => ""

/-- The fixed leading columns of an export row (`app.py` lines 156–163). -/
def baseRow (r : DBRow) : List (String × JVal) :=
  [("ID", JVal.jnum r.id),
   ("Filename", JVal.jstr r.filename),
   ("Upload_Timestamp", JVal.jstr r.upload_timestamp),
   ("Model_Type", JVal.jstr r.model_type),
   ("File_Size_Bytes", JVal.jnum r.file_size),
   ("Raw_Text_Length", JVal.jnum (pyLen r.raw_text))]

/-- Flattening of one decoded field into the export row (`app.py` lines
170–179): a dict with both a "value" and a "currency" key becomes the two
columns `Extracted_{k}_Amount` / `Extracted_{k}_Currency`; any other dict
becomes `Extracted_{k}` holding `str(value)`; anything else is stored
as-is under `Extracted_{k}`. -/
def flattenField (acc : List (String × JVal)) (k : String) (v : JVal) :
    List (String × JVal) :=
  match v with
  | JVal.jobj o =>
    if ((alookup o "value").isSome && (alookup o "currency").isSome : Bool) then
      dictInsert
        (dictInsert acc ("Extracted_" ++ k ++ "_Amount")
          ((alookup o "value").getD JVal.jnull))
        ("Extracted_" ++ k ++ "_Currency")
        ((alookup o "currency").getD JVal.jnull)
    else
      dictInsert acc ("Extracted_" ++ k) (JVal.jstr (pyStr v))
  | _ => dictInsert acc ("Extracted_" ++ k) v

/-- One export row (`app.py` lines 154–190): fixed columns, then the
flattened decoded fields (or the sentinel column on a decode failure),
then the raw-text preview. -/
def exportRow (r : DBRow) : List (String × JVal) :=
  let withFields :=
    match r.structured_data with
    | Blob.absent => baseRow r
    | Blob.ok d => d.foldl (fun a p => flattenField a p.1 p.2) (baseRow r)
    | Blob.bad =>
      dictInsert (baseRow r) "Structured_Data_Error" (JVal.jstr "JSON parsing failed")
  dictInsert withFields "Raw_Text_Preview" (JVal.jstr (previewOf r.raw_text))

/-- `prepare_csv_export` (`app.py` lines 144–196): `None` when the store
yields no rows, otherwise one flattened row per stored record. -/
def prepare_csv_export (dbOk : Bool) (db : List DBRow) :
    Option (List (List (String × JVal))) :=
  match get_all_records dbOk db with
  | [] => none
  | df => some (df.map exportRow)

/-- The `model_mapping` dict of `process_document_with_azure` (`app.py`
lines 261–265), as `dict.get` without default. -/
def model_mapping (model_type : String) : Option String :=
  if model_type = "Invoice" then some "prebuilt-invoice"
  else if model_type = "Receipt" then some "prebuilt-receipt"
  else if model_type = "General Document" then some "prebuilt-read"
  else none

/-- `actual_model_id = model_mapping.get(model_type, "prebuilt-read")`
(`app.py` line 267). -/
def actual_model_id (model_type : String) : String :=
  (model_mapping model_type).getD "prebuilt-read"

/-- Whether a decoded field value takes the currency branch of the
flattener (a dict exposing both a "value" and a "currency" key). -/
def isCurrencyShaped (v : JVal) : Bool :=
  match v with
  | JVal.jobj o => (alookup o "value").isSome && (alookup o "currency").isSome
  | _ => false

/-- Left-biased choice on `Option`, the composition law of successive
dict lookups. -/
def oor {α : Type} : Option α → Option α → Option α
  | some v, _ => some v
  | none, b => b

/-- Lookup of the value written last under a key, i.e. the value a
sequence of Python dict assignments leaves behind. -/
def lookupLast {α : Type} (l : List (String × α)) (k : String) : Option α :=
  alookup l.reverse k

@[simp] lemma oor_some {α : Type} (v : α) (b : Option α) : oor (some v) b = some v := rfl

@[simp] lemma oor_none {α : Type} (b : Option α) : oor none b = b := rfl

@[simp] lemma oor_none_right {α : Type} (a : Option α) : oor a none = a := by
  cases a <;> rfl

lemma oor_assoc {α : Type} (a b c : Option α) : oor (oor a b) c = oor a (oor b c) := by
  cases a <;> rfl

lemma alookup_append {α : Type} (x y : List (String × α)) (k : String) :
    alookup (x ++ y) k = oor (alookup x k) (alookup y k) := by
  induction x with
  | nil => rfl
  | cons p t ih =>
    obtain ⟨k₀, v₀⟩ := p
    by_cases h : k₀ = k <;> simp [alookup, h, ih]

lemma alookup_eq_none {α : Type} (l : List (String × α)) (k : String)
    (h : ∀ p ∈ l, p.1 ≠ k) : alookup l k = none := by
  induction l with
  | nil => rfl
  | cons p t ih =>
    obtain ⟨k₀, v₀⟩ := p
    have hk₀ : k₀ ≠ k := h (k₀, v₀) (List.mem_cons_self _ _)
    simp only [alookup, if_neg hk₀]
    exact ih fun q hq => h q (List.mem_cons_of_mem _ hq)

/-- The observable effect of a Python dict assignment on lookups. -/
lemma alookup_dictInsert {α : Type} (d : List (String × α)) (k : String) (v : α)
    (k' : String) :
    alookup (dictInsert d k v) k' = if k = k' then some v else alookup d k' := by
  induction d with
  | nil =>
    simp only [dictInsert, alookup]
  | cons p t ih =>
    obtain ⟨k₀, v₀⟩ := p
    by_cases h : k₀ = k
    · subst h
      simp only [dictInsert, if_pos rfl, alookup]
      by_cases h' : k₀ = k'
      · subst h'
        simp
      · simp [alookup, h']
    · simp only [dictInsert, if_neg h, alookup]
      by_cases h' : k₀ = k'
      · subst h'
        have : ¬ k = k₀ := fun he => h he.symm
        simp [this]
      · simp [h', ih]

lemma lookupLast_append {α : Type} (x y : List (String × α)) (k : String) :
    lookupLast (x ++ y) k = oor (lookupLast y k) (lookupLast x k) := by
  simp [lookupLast, List.reverse_append, alookup_append]

lemma lookupLast_eq_none {α : Type} (l : List (String × α)) (k : String)
    (h : ∀ p ∈ l, p.1 ≠ k) : lookupLast l k = none := by
  refine alookup_eq_none _ _ fun p hp => h p ?_
  exact List.mem_reverse.mp hp

/-- The columns one decoded field contributes to the export row, in
assignment order (mirrors the branches of `flattenField`). -/
def colsOf (k : String) (v : JVal) : List (String × JVal) :=
  match v with
  | JVal.jobj o =>
    if ((alookup o "value").isSome && (alookup o "currency").isSome : Bool) then
      [("Extracted_" ++ k ++ "_Amount", (alookup o "value").getD JVal.jnull),
       ("Extracted_" ++ k ++ "_Currency", (alookup o "currency").getD JVal.jnull)]
    else [("Extracted_" ++ k, JVal.jstr (pyStr v))]
  | _ => [("Extracted_" ++ k, v)]

/-- All columns a decoded fields mapping contributes, in assignment
order. -/
def emitCols : List (String × JVal) → List (String × JVal)
  | [] => []
  | p :: t => colsOf p.1 p.2 ++ emitCols t

lemma alookup_flattenField (acc : List (String × JVal)) (k : String) (v : JVal)
    (col : String) :
    alookup (flattenField acc k v) col =
      oor (lookupLast (colsOf k v) col) (alookup acc col) := by
  cases v with
  | jobj o =>
    by_cases h : ((alookup o "value").isSome && (alookup o "currency").isSome) = true
    · simp only [flattenField, colsOf, if_pos h]
      rw [alookup_dictInsert, alookup_dictInsert]
      simp only [lookupLast, List.reverse_cons, List.reverse_nil, List.nil_append,
        List.cons_append, alookup]
      split_ifs <;> simp_all
    · simp only [flattenField, colsOf, if_neg h]
      rw [alookup_dictInsert]
      simp only [lookupLast, List.reverse_cons, List.reverse_nil, List.nil_append, alookup]
      split_ifs <;> simp_all
  | jstr s =>
    simp only [flattenField, colsOf]
    rw [alookup_dictInsert]
    simp only [lookupLast, List.reverse_cons, List.reverse_nil, List.nil_append, alookup]
    split_ifs <;> simp_all
  | jnum q =>
    simp only [flattenField, colsOf]
    rw [alookup_dictInsert]
    simp only [lookupLast, List.reverse_cons, List.reverse_nil, List.nil_append, alookup]
    split_ifs <;> simp_all
  | jnull =>
    simp only [flattenField, colsOf]
    rw [alookup_dictInsert]
    simp only [lookupLast, List.reverse_cons, List.reverse_nil, List.nil_append, alookup]
    split_ifs <;> simp_all

/-- Master lemma: a lookup in the row produced by flattening a decoded
fields mapping is the last column of that name the mapping emits,
falling back to the accumulated row. -/
lemma alookup_foldl_flatten (d : List (String × JVal)) (acc : List (String × JVal))
    (col : String) :
    alookup (d.foldl (fun a p => flattenField a p.1 p.2) acc) col =
      oor (lookupLast (emitCols d) col) (alookup acc col) := by
  induction d generalizing acc with
  | nil => simp [emitCols, lookupLast, alookup]
  | cons p t ih =>
    simp only [List.foldl_cons, emitCols]
    rw [ih, alookup_flattenField, lookupLast_append, oor_assoc]

lemma extracted_head (s : String) : ("Extracted_" ++ s).data.head? = some 'E' := by
  rw [String.data_append]
  rfl

/-- No flattened field column can coincide with a fixed column: every
flattened column name starts with `Extracted_`. -/
lemma extracted_ne (s t : String) (h : t.data.head? ≠ some 'E') :
    "Extracted_" ++ s ≠ t := by
  intro he
  apply h
  rw [← he]
  exact extracted_head s

lemma str_append_right_inj (s : String) {t u : String} :
    s ++ t = s ++ u ↔ t = u := by
  constructor
  · intro h
    have hd := congrArg String.data h
    rw [String.data_append, String.data_append] at hd
    exact String.ext (List.append_cancel_left hd)
  · intro h; rw [h]

lemma str_self_ne_append (x u : String) (h : u ≠ "") : x ++ u ≠ x := by
  intro he
  apply h
  have hd := congrArg String.data he
  rw [String.data_append] at hd
  have hl := congrArg List.length hd
  rw [List.length_append] at hl
  have : u.data.length = 0 := by omega
  exact String.ext (List.length_eq_zero.mp this)

lemma mem_emitCols (d : List (String × JVal)) (q : String × JVal)
    (h : q ∈ emitCols d) : ∃ p ∈ d, q ∈ colsOf p.1 p.2 := by
  induction d with
  | nil => simp [emitCols] at h
  | cons p t ih =>
    simp only [emitCols, List.mem_append] at h
    rcases h with h | h
    · exact ⟨p, List.mem_cons_self _ _, h⟩
    · obtain ⟨p', hp', hq⟩ := ih h
      exact ⟨p', List.mem_cons_of_mem _ hp', hq⟩

lemma colsOf_fst_extracted (k : String) (v : JVal) :
    ∀ q ∈ colsOf k v, ∃ s, q.1 = "Extracted_" ++ s := by
  intro q hq
  cases v with
  | jobj o =>
    by_cases h : ((alookup o "value").isSome && (alookup o "currency").isSome) = true
    · simp only [colsOf, if_pos h, List.mem_cons, List.mem_singleton] at hq
      rcases hq with hq | hq | hq
      · exact ⟨k ++ "_Amount", by rw [hq, String.append_assoc]⟩
      · exact ⟨k ++ "_Currency", by rw [hq, String.append_assoc]⟩
      · cases hq
    · simp only [colsOf, if_neg h, List.mem_singleton] at hq
      exact ⟨k, by rw [hq]⟩
  | jstr s =>
    simp only [colsOf, List.mem_singleton] at hq
    exact ⟨k, by rw [hq]⟩
  | jnum n =>
    simp only [colsOf, List.mem_singleton] at hq
    exact ⟨k, by rw [hq]⟩
  | jnull =>
    simp only [colsOf, List.mem_singleton] at hq
    exact ⟨k, by rw [hq]⟩

lemma lookupLast_emitCols_none (t : List (String × JVal)) (col : String)
    (h : ∀ p ∈ t, ∀ q ∈ colsOf p.1 p.2, q.1 ≠ col) :
    lookupLast (emitCols t) col = none := by
  apply lookupLast_eq_none
  intro q hq
  obtain ⟨p, hp, hqc⟩ := mem_emitCols t q hq
  exact h p hp q hqc

/-- Field-derived columns never shadow a column whose name does not start
with an `E`. -/
lemma lookupLast_emitCols_of_head (d : List (String × JVal)) (col : String)
    (hcol : col.data.head? ≠ some 'E') :
    lookupLast (emitCols d) col = none := by
  refine lookupLast_emitCols_none d col fun p hp q hq => ?_
  obtain ⟨s, hs⟩ := colsOf_fst_extracted p.1 p.2 q hq
  rw [hs]
  exact extracted_ne s col hcol

lemma baseRow_no_extracted (r : DBRow) (s : String) :
    alookup (baseRow r) ("Extracted_" ++ s) = none := by
  have hne : ∀ t : String, t.data.head? ≠ some 'E' → t ≠ "Extracted_" ++ s :=
    fun t h he => extracted_ne s t h he.symm
  simp only [baseRow, alookup]
  rw [if_neg (hne "ID" (by decide)), if_neg (hne "Filename" (by decide)),
    if_neg (hne "Upload_Timestamp" (by decide)),
    if_neg (hne "Model_Type" (by decide)),
    if_neg (hne "File_Size_Bytes" (by decide)),
    if_neg (hne "Raw_Text_Length" (by decide))]

/-- `C3`: for every extraction-service response exposing a non-empty
collection of recognized documents with a non-empty field collection, the
fields mapping is populated entirely from the first document's fields
(stage 1), and the key/value-pair and table collections of the response
are never consulted: changing them leaves the result unchanged. -/
theorem stage1_sole_source_of_fields (r : AnalyzeResult) (d : Doc)
    (rest : List Doc) (h1 : r.documents = d :: rest) (h2 : d.fields ≠ []) :
    structuredDataOf r = docFieldsData d ∧
      ∀ (kvs : List KVPair) (ts : List Table),
        structuredDataOf { r with keyValuePairs := kvs, tables := ts } =
          structuredDataOf r := by
  constructor
  · simp [structuredDataOf, h1]
  · intro kvs ts
    simp [structuredDataOf, h1]

def c3Field : DocField :=
  { value := some { amount := none, currency_code := none,
                    rendered := "ACME", asJson := JVal.jstr "ACME" }
    value_type := some "string" }

def c3Doc : Doc := { fields := [("VendorName", c3Field)] }

def c3Resp : AnalyzeResult :=
  { content := some "ACME"
    documents := [c3Doc]
    keyValuePairs := [{ key := some { content := some "k", rendered := "k" }
                        value := some { content := some "v", rendered := "v" } }]
    tables := [{ row_count := 2, column_count := 3 }] }

theorem stage1_sole_source_of_fields_witness :
    structuredDataOf c3Resp = docFieldsData c3Doc :=
  (stage1_sole_source_of_fields c3Resp c3Doc [] rfl (List.cons_ne_nil _ _)).1

/-- `C4`: a field whose type tag is `currency` is emitted as the exact
currency pair when the underlying value exposes both an amount and a
currency-code; when either is missing it degrades to the textual
rendering; in both cases the field is emitted rather than dropped (and
`classifyField` is a total function, so classification never raises). -/
theorem currency_classification_total (f : DocField) (v : AzureVal)
    (h1 : f.value = some v) (h2 : f.value_type = some "currency") :
    (∀ (a : Rat) (cc : String), v.amount = some a → v.currency_code = some cc →
        classifyField f = some (currencyVal a cc)) ∧
      ((v.amount = none ∨ v.currency_code = none) →
        classifyField f = some (JVal.jstr v.rendered)) ∧
      (classifyField f).isSome := by
  refine ⟨fun a cc ha hcc => ?_, fun hmiss => ?_, ?_⟩
  · simp [classifyField, h1, h2, ha, hcc]
  · rcases hmiss with ha | hcc
    · cases hcc' : v.currency_code <;> simp [classifyField, h1, h2, ha, hcc']
    · cases ha' : v.amount <;> simp [classifyField, h1, h2, ha', hcc]
  · cases ha' : v.amount <;> cases hcc' : v.currency_code <;>
      simp [classifyField, h1, h2, ha', hcc']

def c4Val : AzureVal :=
  { amount := some 5, currency_code := some "USD", rendered := "5 USD",
    asJson := JVal.jnull }

def c4Field : DocField := { value := some c4Val, value_type := some "currency" }

theorem currency_classification_total_witness :
    classifyField c4Field = some (currencyVal 5 "USD") :=
  (currency_classification_total c4Field c4Val rfl rfl).1 5 "USD" rfl rfl

/-- `C9`: every model-type string other than the three mapped names falls
back to the `prebuilt-read` model identifier — the same identifier that
`General Document` maps to — rather than failing. -/
theorem unknown_model_type_defaults_to_read_model (mt : String)
    (h1 : mt ≠ "Invoice") (h2 : mt ≠ "Receipt") (h3 : mt ≠ "General Document") :
    actual_model_id mt = "prebuilt-read" ∧
      actual_model_id "General Document" = "prebuilt-read" := by
  constructor
  · simp [actual_model_id, model_mapping, h1, h2, h3]
  · rfl

theorem unknown_model_type_defaults_to_read_model_witness :
    actual_model_id "Layout" = "prebuilt-read" ∧
      actual_model_id "General Document" = "prebuilt-read" :=
  unknown_model_type_defaults_to_read_model "Layout"
    (by decide) (by decide) (by decide)

/-- `C10`: with zero stored records the export preparation returns `none`
rather than an empty row list; a failed store read also yields `none`,
and no input ever yields `some []`, so the two cases are
indistinguishable at this interface. -/
theorem empty_store_export_none :
    (∀ dbOk : Bool, prepare_csv_export dbOk [] = none) ∧
      (∀ db : List DBRow, prepare_csv_export false db = none) ∧
      ∀ (dbOk : Bool) (db : List DBRow), prepare_csv_export dbOk db ≠ some [] := by
  refine ⟨fun dbOk => ?_, fun db => rfl, fun dbOk db h => ?_⟩
  · cases dbOk <;> rfl
  · unfold prepare_csv_export at h
    cases hg : get_all_records dbOk db with
    | nil => rw [hg] at h; exact Option.noConfusion h
    | cons a t => rw [hg] at h; simp at h

theorem empty_store_export_none_witness :
    prepare_csv_export true ([] : List DBRow) = none :=
  empty_store_export_none.1 true

/-- The preview column is written last, so it is never shadowed. -/
lemma alookup_exportRow_preview (r : DBRow) :
    alookup (exportRow r) "Raw_Text_Preview" =
      some (JVal.jstr (previewOf r.raw_text)) := by
  unfold exportRow
  rw [alookup_dictInsert, if_pos rfl]

/-- `C6`: the `Raw_Text_Preview` column equals the full raw text when it
has at most 500 characters (so exactly 500 yields no ellipsis), the first
500 characters followed by the ellipsis marker when longer, and the empty
string when the raw text is empty or absent. -/
theorem raw_text_preview_rule (r : DBRow) :
    (∀ t : String, r.raw_text = some t → t.length ≤ 500 →
        alookup (exportRow r) "Raw_Text_Preview" = some (JVal.jstr t)) ∧
      (∀ t : String, r.raw_text = some t → t.length > 500 →
        alookup (exportRow r) "Raw_Text_Preview" =
          some (JVal.jstr (t.take 500 ++ "..."))) ∧
      ((r.raw_text = none ∨ r.raw_text = some "") →
        alookup (exportRow r) "Raw_Text_Preview" = some (JVal.jstr "")) := by
  refine ⟨fun t ht hle => ?_, fun t ht hgt => ?_, fun h0 => ?_⟩
  · rw [alookup_exportRow_preview, ht]
    have hng : ¬ t.length > 500 := by omega
    by_cases h0 : t = ""
    · subst h0; rfl
    · simp [previewOf, h0, hng]
  · rw [alookup_exportRow_preview, ht]
    have h0 : t ≠ "" := by
      intro he
      subst he
      have : ("" : String).length = 0 := rfl
      omega
    simp [previewOf, h0, hgt]
  · rcases h0 with h | h <;> rw [alookup_exportRow_preview, h] <;> rfl

def c6Text : String := String.mk (List.replicate 501 'a')

def c6Row : DBRow :=
  { id := 1, filename := "long.pdf", upload_timestamp := "2024-01-01T00:00:00"
    raw_text := some c6Text, structured_data := Blob.absent
    model_type := "General Document", file_size := 9 }

set_option maxRecDepth 4096 in
theorem raw_text_preview_rule_witness :
    alookup (exportRow c6Row) "Raw_Text_Preview" =
      some (JVal.jstr (c6Text.take 500 ++ "...")) :=
  (raw_text_preview_rule c6Row).2.1 c6Text rfl (by decide)

lemma kvEmissions_eq (ps : List KVPair) :
    kvEmissions ps =
      (ps.filter (fun p => p.key.isSome && p.value.isSome)).map
        (fun p => (optText p.key, JVal.jstr (optText p.value))) := by
  induction ps with
  | nil => rfl
  | cons p t ih =>
    cases hk : p.key <;> cases hv : p.value <;>
      simp [kvEmissions, List.filter_cons, hk, hv, ih, optText]

/-- `C1`: when stage 1 yields an empty mapping and key/value pair entries
exist, the key/value-pairs stage emits exactly one scalar field per pair
having both a key and a value — keyed by the key text and holding the
value text — and skips every pair missing either side; when those
emissions are non-empty they become the normalized fields mapping. -/
theorem kv_pairs_stage_emits_complete_pairs (r : AnalyzeResult)
    (h1 : structuredDataOf r = []) (h2 : r.keyValuePairs ≠ []) :
    kvEmissions r.keyValuePairs =
        (r.keyValuePairs.filter (fun p => p.key.isSome && p.value.isSome)).map
          (fun p => (optText p.key, JVal.jstr (optText p.value))) ∧
      (stage2Fields r ≠ [] →
        normalizeFields r = listToDict (kvEmissions r.keyValuePairs)) := by
  refine ⟨kvEmissions_eq r.keyValuePairs, fun hne => ?_⟩
  have hmain : normalizeFields r = stage2Fields r := by
    unfold normalizeFields
    rw [h1]
    cases hs : stage2Fields r with
    | nil => exact absurd hs hne
    | cons a t => rfl
  rw [hmain]
  rfl

def c1Resp : AnalyzeResult :=
  { content := none
    documents := []
    keyValuePairs :=
      [{ key := some { content := some "Invoice No", rendered := "Invoice No" }
         value := some { content := some "42", rendered := "42" } },
       { key := none
         value := some { content := some "orphan", rendered := "orphan" } }]
    tables := [] }

theorem kv_pairs_stage_emits_complete_pairs_witness :
    normalizeFields c1Resp = listToDict (kvEmissions c1Resp.keyValuePairs) :=
  (kv_pairs_stage_emits_complete_pairs c1Resp rfl
    (List.cons_ne_nil _ _)).2 (List.cons_ne_nil _ _)

lemma stage3Emissions_length (n : Nat) (ts : List Table) :
    (stage3Emissions n ts).length = 2 * ts.length := by
  induction ts generalizing n with
  | nil => rfl
  | cons t ts ih =>
    simp only [stage3Emissions, List.length_cons, ih]
    omega

lemma stage3Emissions_mem (ts : List Table) :
    ∀ (n i : Nat) (t : Table), ts.get? i = some t →
      ("Table_" ++ toString (n + i + 1) ++ "_Rows", JVal.jnum t.row_count) ∈
          stage3Emissions n ts ∧
        ("Table_" ++ toString (n + i + 1) ++ "_Columns", JVal.jnum t.column_count) ∈
          stage3Emissions n ts := by
  induction ts with
  | nil => intro n i t h; simp [List.get?] at h
  | cons t₀ ts ih =>
    intro n i t h
    cases i with
    | zero =>
      have ht : t₀ = t := by simpa [List.get?] using h
      subst ht
      constructor
      · exact List.mem_cons_self _ _
      · exact List.mem_cons_of_mem _ (List.mem_cons_self _ _)
    | succ i =>
      have h' : ts.get? i = some t := by simpa [List.get?] using h
      obtain ⟨hr, hc⟩ := ih (n + 1) i t h'
      have heq : n + (i + 1) + 1 = n + 1 + i + 1 := by omega
      rw [heq]
      exact ⟨List.mem_cons_of_mem _ (List.mem_cons_of_mem _ hr),
        List.mem_cons_of_mem _ (List.mem_cons_of_mem _ hc)⟩

/-- `C2`: when stages 1 and 2 both yield an empty mapping and at least
one table exists, the table-metadata stage becomes the normalized fields
mapping and emits exactly `2 * N` synthetic scalar fields for `N` tables:
a row count and a column count per table, keyed by a name incorporating
the table's (one-based) position. -/
theorem table_stage_emits_two_fields_per_table (r : AnalyzeResult)
    (h1 : structuredDataOf r = []) (h2 : stage2Fields r = [])
    (h3 : r.tables ≠ []) :
    normalizeFields r = listToDict (stage3Emissions 0 r.tables) ∧
      (stage3Emissions 0 r.tables).length = 2 * r.tables.length ∧
      ∀ (i : Nat) (t : Table), r.tables.get? i = some t →
        ("Table_" ++ toString (i + 1) ++ "_Rows", JVal.jnum t.row_count) ∈
            stage3Emissions 0 r.tables ∧
          ("Table_" ++ toString (i + 1) ++ "_Columns", JVal.jnum t.column_count) ∈
            stage3Emissions 0 r.tables := by
  refine ⟨?_, stage3Emissions_length 0 _, fun i t ht => ?_⟩
  · unfold normalizeFields
    rw [h1, h2]
    rfl
  · have := stage3Emissions_mem r.tables 0 i t ht
    simpa using this

def c2Resp : AnalyzeResult :=
  { content := none
    documents := []
    keyValuePairs := []
    tables := [{ row_count := 3, column_count := 4 },
               { row_count := 1, column_count := 2 }] }

theorem table_stage_emits_two_fields_per_table_witness :
    normalizeFields c2Resp = listToDict (stage3Emissions 0 c2Resp.tables) ∧
      (stage3Emissions 0 c2Resp.tables).length = 2 * c2Resp.tables.length :=
  (fun h => ⟨h.1, h.2.1⟩)
    (table_stage_emits_two_fields_per_table c2Resp rfl rfl (List.cons_ne_nil _ _))

lemma pyLen_some (t : String) : pyLen (some t) = t.length := by
  by_cases h : t = ""
  · subst h; rfl
  · simp [pyLen, h]

/-- A fixed column (one whose name does not start with `E` and is not the
preview column) of an export row built from a decodable blob reads
straight from the base columns: no flattened field can shadow it. -/
lemma exportRow_base_col (r : DBRow) (d : List (String × JVal)) (col : String)
    (hd : r.structured_data = Blob.ok d)
    (hcol : col.data.head? ≠ some 'E')
    (hprev : "Raw_Text_Preview" ≠ col) :
    alookup (exportRow r) col = alookup (baseRow r) col := by
  simp only [exportRow, hd]
  rw [alookup_dictInsert, if_neg hprev, alookup_foldl_flatten,
    lookupLast_emitCols_of_head _ _ hcol, oor_none]

/-- The row `save_to_database` appends to an empty store. -/
def savedRow (fn rt : String) (fields : List (String × JVal)) (mt : String)
    (fs : Nat) (now : String) : DBRow :=
  { id := 1, filename := fn, upload_timestamp := now, raw_text := some rt
    structured_data := Blob.ok fields, model_type := mt, file_size := fs }

/-- `C7`: appending a record with no currency-typed fields to an empty
store and flattening the store yields exactly one row, whose `Filename`,
`File_Size_Bytes` and `Raw_Text_Length` columns reproduce the record's
filename, size and raw-text character length (0 for empty text). -/
theorem save_export_round_trip (fn rt mt now : String) (fs : Nat)
    (fields : List (String × JVal))
    (hnc : ∀ p ∈ fields, isCurrencyShaped p.2 = false) :
    prepare_csv_export true (save_to_database [] fn rt fields mt fs now) =
        some [exportRow (savedRow fn rt fields mt fs now)] ∧
      alookup (exportRow (savedRow fn rt fields mt fs now)) "Filename" =
        some (JVal.jstr fn) ∧
      alookup (exportRow (savedRow fn rt fields mt fs now)) "File_Size_Bytes" =
        some (JVal.jnum fs) ∧
      alookup (exportRow (savedRow fn rt fields mt fs now)) "Raw_Text_Length" =
        some (JVal.jnum rt.length) := by
  refine ⟨rfl, ?_, ?_, ?_⟩
  · rw [exportRow_base_col (savedRow fn rt fields mt fs now) fields _ rfl
      (by decide) (by decide)]
    simp [baseRow, alookup, savedRow]
  · rw [exportRow_base_col (savedRow fn rt fields mt fs now) fields _ rfl
      (by decide) (by decide)]
    simp [baseRow, alookup, savedRow]
  · rw [exportRow_base_col (savedRow fn rt fields mt fs now) fields _ rfl
      (by decide) (by decide)]
    simp [baseRow, alookup, savedRow, pyLen_some]

theorem save_export_round_trip_witness :
    prepare_csv_export true
        (save_to_database [] "a.pdf" "hello"
          [("VendorName", JVal.jstr "ACME")] "Invoice" 7 "2024-01-01T00:00:00") =
        some [exportRow (savedRow "a.pdf" "hello"
          [("VendorName", JVal.jstr "ACME")] "Invoice" 7 "2024-01-01T00:00:00")] ∧
      alookup (exportRow (savedRow "a.pdf" "hello"
          [("VendorName", JVal.jstr "ACME")] "Invoice" 7 "2024-01-01T00:00:00"))
          "Filename" = some (JVal.jstr "a.pdf") ∧
      alookup (exportRow (savedRow "a.pdf" "hello"
          [("VendorName", JVal.jstr "ACME")] "Invoice" 7 "2024-01-01T00:00:00"))
          "File_Size_Bytes" = some (JVal.jnum 7) ∧
      alookup (exportRow (savedRow "a.pdf" "hello"
          [("VendorName", JVal.jstr "ACME")] "Invoice" 7 "2024-01-01T00:00:00"))
          "Raw_Text_Length" = some (JVal.jnum ("hello" : String).length) :=
  save_export_round_trip "a.pdf" "hello" "Invoice" "2024-01-01T00:00:00" 7
    [("VendorName", JVal.jstr "ACME")]
    (by intro p hp; rw [List.mem_singleton] at hp; subst hp; rfl)

/-- `C8`: a decode failure on one stored record's fields blob yields for
that record a single sentinel column in place of any field-derived
columns (its column set is exactly the fixed columns plus the sentinel),
while the export still succeeds and exports every stored record's row. -/
theorem decode_failure_isolated (db : List DBRow) (bad : DBRow)
    (hb : bad.structured_data = Blob.bad) (hmem : bad ∈ db) :
    prepare_csv_export true db =
        some ((get_all_records true db).map exportRow) ∧
      (∀ r ∈ db, exportRow r ∈ (get_all_records true db).map exportRow) ∧
      alookup (exportRow bad) "Structured_Data_Error" =
        some (JVal.jstr "JSON parsing failed") ∧
      (exportRow bad).map Prod.fst =
        ["ID", "Filename", "Upload_Timestamp", "Model_Type",
         "File_Size_Bytes", "Raw_Text_Length", "Structured_Data_Error",
         "Raw_Text_Preview"] := by
  have hne : get_all_records true db ≠ [] := by
    intro hg
    have hlen : (get_all_records true db).length = db.length := by
      simp [get_all_records, List.length_insertionSort]
    rw [hg] at hlen
    have hdb : db = [] := List.length_eq_zero.mp hlen.symm
    rw [hdb] at hmem
    cases hmem
  refine ⟨?_, fun r hr => ?_, ?_, ?_⟩
  · unfold prepare_csv_export
    cases hg : get_all_records true db with
    | nil => exact absurd hg hne
    | cons a t => rfl
  · have hr' : r ∈ get_all_records true db := by
      simp [get_all_records, List.mem_insertionSort, hr]
    exact List.mem_map_of_mem _ hr'
  · simp only [exportRow, hb]
    rw [alookup_dictInsert,
      if_neg (by decide : ¬("Raw_Text_Preview" = "Structured_Data_Error")),
      alookup_dictInsert, if_pos rfl]
  · simp only [exportRow, hb]
    rfl

def bad8 : DBRow :=
  { id := 1, filename := "broken.pdf", upload_timestamp := "2024-02-02T00:00:00"
    raw_text := some "xx", structured_data := Blob.bad
    model_type := "Invoice", file_size := 5 }

def good8 : DBRow :=
  { id := 2, filename := "fine.pdf", upload_timestamp := "2024-01-01T00:00:00"
    raw_text := some "yy", structured_data := Blob.ok [("Total", JVal.jstr "9")]
    model_type := "Receipt", file_size := 6 }

def db8 : List DBRow := [bad8, good8]

theorem decode_failure_isolated_witness :
    prepare_csv_export true db8 =
        some ((get_all_records true db8).map exportRow) ∧
      exportRow good8 ∈ (get_all_records true db8).map exportRow ∧
      alookup (exportRow bad8) "Structured_Data_Error" =
        some (JVal.jstr "JSON parsing failed") ∧
      (exportRow bad8).map Prod.fst =
        ["ID", "Filename", "Upload_Timestamp", "Model_Type",
         "File_Size_Bytes", "Raw_Text_Length", "Structured_Data_Error",
         "Raw_Text_Preview"] :=
  (fun h => ⟨h.1, h.2.1 good8 (by simp [db8]), h.2.2.1, h.2.2.2⟩)
    (decode_failure_isolated db8 bad8 rfl (List.mem_cons_self _ _))

def c5Fields : List (String × JVal) :=
  [("Total", currencyVal 150 "USD"), ("Total_Amount", JVal.jstr "oops")]

def c5Row : DBRow :=
  { id := 1, filename := "inv.pdf", upload_timestamp := "2024-01-01T00:00:00"
    raw_text := some "t", structured_data := Blob.ok c5Fields
    model_type := "Invoice", file_size := 3 }

/-- `C5` counterexample: a decoded mapping can contain a Currency value
under key `Total` while a sibling scalar field named `Total_Amount`
flattens to the very column `Extracted_Total_Amount` and, being processed
later, overwrites it — so the exported row's `Extracted_Total_Amount`
column holds the sibling's text, not the currency amount. -/
theorem currency_columns_collision_cex :
    alookup c5Fields "Total" = some (currencyVal 150 "USD") ∧
      alookup (exportRow c5Row) "Extracted_Total_Amount" =
        some (JVal.jstr "oops") ∧
      JVal.jstr "oops" ≠ JVal.jnum 150 := by
  refine ⟨rfl, ?_, by simp⟩
  rfl

lemma lookupLast_pair {α : Type} (c₁ c₂ : String) (v₁ v₂ : α) (k : String) :
    lookupLast [(c₁, v₁), (c₂, v₂)] k =
      if c₂ = k then some v₂ else if c₁ = k then some v₁ else none := rfl

lemma emitCols_currency_lookup (k : String) (a : Rat) (c : String) :
    ∀ d : List (String × JVal),
      alookup d k = some (currencyVal a c) →
      (d.map Prod.fst).Nodup →
      (∀ p ∈ d, p.1 ≠ k → ∀ q ∈ colsOf p.1 p.2,
        q.1 ≠ "Extracted_" ++ k ++ "_Amount" ∧
          q.1 ≠ "Extracted_" ++ k ++ "_Currency" ∧
          q.1 ≠ "Extracted_" ++ k) →
      lookupLast (emitCols d) ("Extracted_" ++ k ++ "_Amount") =
          some (JVal.jnum a) ∧
        lookupLast (emitCols d) ("Extracted_" ++ k ++ "_Currency") =
          some (JVal.jstr c) ∧
        lookupLast (emitCols d) ("Extracted_" ++ k) = none := by
  intro d
  induction d with
  | nil => intro hk _ _; cases hk
  | cons p t ih =>
    intro hk hnodup hnc
    obtain ⟨k₀, v₀⟩ := p
    have hemit : emitCols ((k₀, v₀) :: t) = colsOf k₀ v₀ ++ emitCols t := rfl
    rw [hemit, lookupLast_append, lookupLast_append, lookupLast_append]
    by_cases hpk : k₀ = k
    · subst hpk
      have hv : v₀ = currencyVal a c := by simpa [alookup] using hk
      subst hv
      obtain ⟨hk0nin, hndt⟩ := List.nodup_cons.mp hnodup
      have hk0nin' : k₀ ∉ List.map Prod.fst t := hk0nin
      have hp'ne : ∀ p' ∈ t, p'.1 ≠ k₀ := by
        intro p' hp' he
        apply hk0nin'
        rw [← he]
        exact List.mem_map_of_mem Prod.fst hp'
      have htailA :
          lookupLast (emitCols t) ("Extracted_" ++ k₀ ++ "_Amount") = none :=
        lookupLast_emitCols_none t _ fun p' hp' q hq =>
          (hnc p' (List.mem_cons_of_mem _ hp') (hp'ne p' hp') q hq).1
      have htailC :
          lookupLast (emitCols t) ("Extracted_" ++ k₀ ++ "_Currency") = none :=
        lookupLast_emitCols_none t _ fun p' hp' q hq =>
          (hnc p' (List.mem_cons_of_mem _ hp') (hp'ne p' hp') q hq).2.1
      have htailP : lookupLast (emitCols t) ("Extracted_" ++ k₀) = none :=
        lookupLast_emitCols_none t _ fun p' hp' q hq =>
          (hnc p' (List.mem_cons_of_mem _ hp') (hp'ne p' hp') q hq).2.2
      rw [htailA, htailC, htailP, oor_none, oor_none, oor_none]
      have hcols : colsOf k₀ (currencyVal a c) =
          [("Extracted_" ++ k₀ ++ "_Amount", JVal.jnum a),
           ("Extracted_" ++ k₀ ++ "_Currency", JVal.jstr c)] := rfl
      have hCA : "Extracted_" ++ k₀ ++ "_Currency" ≠
          "Extracted_" ++ k₀ ++ "_Amount" := fun he =>
        absurd ((str_append_right_inj ("Extracted_" ++ k₀)).mp he) (by decide)
      have hCP : "Extracted_" ++ k₀ ++ "_Currency" ≠ "Extracted_" ++ k₀ :=
        str_self_ne_append ("Extracted_" ++ k₀) "_Currency" (by decide)
      have hAP : "Extracted_" ++ k₀ ++ "_Amount" ≠ "Extracted_" ++ k₀ :=
        str_self_ne_append ("Extracted_" ++ k₀) "_Amount" (by decide)
      rw [hcols]
      refine ⟨?_, ?_, ?_⟩
      · rw [lookupLast_pair, if_neg hCA, if_pos rfl]
      · rw [lookupLast_pair, if_pos rfl]
      · rw [lookupLast_pair, if_neg hCP, if_neg hAP]
    · have hk' : alookup t k = some (currencyVal a c) := by
        simpa [alookup, hpk] using hk
      have hndt : (t.map Prod.fst).Nodup := (List.nodup_cons.mp hnodup).2
      have hnc' : ∀ p ∈ t, p.1 ≠ k → ∀ q ∈ colsOf p.1 p.2,
          q.1 ≠ "Extracted_" ++ k ++ "_Amount" ∧
            q.1 ≠ "Extracted_" ++ k ++ "_Currency" ∧
            q.1 ≠ "Extracted_" ++ k :=
        fun p hp => hnc p (List.mem_cons_of_mem _ hp)
      obtain ⟨ihA, ihC, ihP⟩ := ih hk' hndt hnc'
      have hown := hnc (k₀, v₀) (List.mem_cons_self _ _) hpk
      have hownA : lookupLast (colsOf k₀ v₀) ("Extracted_" ++ k ++ "_Amount") = none :=
        lookupLast_eq_none _ _ fun q hq => (hown q hq).1
      have hownC : lookupLast (colsOf k₀ v₀) ("Extracted_" ++ k ++ "_Currency") = none :=
        lookupLast_eq_none _ _ fun q hq => (hown q hq).2.1
      have hownP : lookupLast (colsOf k₀ v₀) ("Extracted_" ++ k) = none :=
        lookupLast_eq_none _ _ fun q hq => (hown q hq).2.2
      rw [hownA, hownC, hownP, oor_none_right, oor_none_right, oor_none_right]
      exact ⟨ihA, ihC, ihP⟩

/-- `C5` amended: for every stored record whose decoded fields mapping
contains a Currency value under key `k`, the flattened row's
`Extracted_{k}_Amount` and `Extracted_{k}_Currency` columns hold the
amount and the currency code, and no `Extracted_{k}` column exists —
provided no other field of the mapping flattens to one of those three
column names (without that proviso the claim fails, see the
counterexample: a sibling field named `k_Amount` or `k_Currency`
overwrites the currency columns). -/
theorem currency_fields_split_into_two_columns (r : DBRow)
    (d : List (String × JVal)) (k : String) (a : Rat) (c : String)
    (hd : r.structured_data = Blob.ok d)
    (hk : alookup d k = some (currencyVal a c))
    (hnodup : (d.map Prod.fst).Nodup)
    (hnc : ∀ p ∈ d, p.1 ≠ k → ∀ q ∈ colsOf p.1 p.2,
      q.1 ≠ "Extracted_" ++ k ++ "_Amount" ∧
        q.1 ≠ "Extracted_" ++ k ++ "_Currency" ∧
        q.1 ≠ "Extracted_" ++ k) :
    alookup (exportRow r) ("Extracted_" ++ k ++ "_Amount") =
        some (JVal.jnum a) ∧
      alookup (exportRow r) ("Extracted_" ++ k ++ "_Currency") =
        some (JVal.jstr c) ∧
      alookup (exportRow r) ("Extracted_" ++ k) = none := by
  obtain ⟨hA, hC, hP⟩ := emitCols_currency_lookup k a c d hk hnodup hnc
  have hprevA : "Raw_Text_Preview" ≠ "Extracted_" ++ k ++ "_Amount" := by
    rw [String.append_assoc]
    exact fun he => extracted_ne _ _ (by decide) he.symm
  have hprevC : "Raw_Text_Preview" ≠ "Extracted_" ++ k ++ "_Currency" := by
    rw [String.append_assoc]
    exact fun he => extracted_ne _ _ (by decide) he.symm
  have hprevP : "Raw_Text_Preview" ≠ "Extracted_" ++ k :=
    fun he => extracted_ne _ _ (by decide) he.symm
  refine ⟨?_, ?_, ?_⟩
  · simp only [exportRow, hd]
    rw [alookup_dictInsert, if_neg hprevA, alookup_foldl_flatten, hA, oor_some]
  · simp only [exportRow, hd]
    rw [alookup_dictInsert, if_neg hprevC, alookup_foldl_flatten, hC, oor_some]
  · simp only [exportRow, hd]
    rw [alookup_dictInsert, if_neg hprevP, alookup_foldl_flatten, hP, oor_none]
    exact baseRow_no_extracted r k

def c5GoodFields : List (String × JVal) := [("Total", currencyVal 150 "USD")]

def c5GoodRow : DBRow :=
  { id := 2, filename := "ok.pdf", upload_timestamp := "2024-01-02T00:00:00"
    raw_text := some "t", structured_data := Blob.ok c5GoodFields
    model_type := "Invoice", file_size := 4 }

theorem currency_fields_split_into_two_columns_witness :
    alookup (exportRow c5GoodRow) ("Extracted_" ++ "Total" ++ "_Amount") =
        some (JVal.jnum 150) ∧
      alookup (exportRow c5GoodRow) ("Extracted_" ++ "Total" ++ "_Currency") =
        some (JVal.jstr "USD") ∧
      alookup (exportRow c5GoodRow) ("Extracted_" ++ "Total") = none :=
  currency_fields_split_into_two_columns c5GoodRow c5GoodFields "Total" 150 "USD"
    rfl rfl (by decide)
    (by intro p hp hne; simp [c5GoodFields] at hp; subst hp; exact absurd rfl hne)
